import Mathlib

/-!
Verification of the resilient-python-cache block-synchronization engine.

The repository's visible sources (`src/example.py`, `src/test.py`) are the
embedding scripts; the synchronization core they drive (`ResilientPythonCache`
with its persistence adapter and reconciler) is not part of the visible
sources, so the core is modelled here from the specification's words
(sections 3, 4.2, 4.3, 4.4 of the design document), while the two scripts
are embedded directly from their Python sources.
-/

/-- Modelled from the spec: the `Block` record of §3 (the implementation of
the cache core is missing from the sources). A block carries a monotonically
increasing `height` (the ordering key), a content-derived `id` (opaque
identity used for dedup), and an opaque `payload` not interpreted by the
core. -/
structure Block where
  height : Nat
  id : Nat
  payload : Nat
  deriving DecidableEq

/-- Modelled from the spec: the `SyncCursor` record of §3 — the engine's
notion of progress, `lastPersistedHeight` (highest height durably written)
and `lastPersistedId` (its block id). -/
structure SyncCursor where
  lastPersistedHeight : Nat
  lastPersistedId : Nat
  deriving DecidableEq

/-- Modelled from the spec: the backing collection owned by the Persistence
Adapter (§4.2) — the durably written block records together with the cursor,
which is mutated only by successful persistence, atomically with the records
(both live in one value, so an `appendBatch` call replaces them together). -/
structure Store where
  records : List Block
  cursor : Option SyncCursor
  deriving DecidableEq

/-- Modelled from the spec: the error taxonomy of §7 that the running engine
surfaces asynchronously (transport, not-found, sequence-conflict,
reorg-detected, persistence failures). -/
inductive SyncError where
  | transportError
  | notFoundError
  | sequenceConflictError
  | reorgDetectedError
  | persistenceError
  deriving DecidableEq

/-- Modelled from the spec: `loadCursor()` of §4.2 — the cursor, or `none`
if the store is empty. -/
def loadCursor (s : Store) : Option SyncCursor :=
  s.cursor

/-- Modelled from the spec: §4.3 initial state — the height the engine
resumes from: the loaded cursor's `lastPersistedHeight`, or `0`
(genesis-exclusive) when the cursor is absent. -/
def cursorHeight (s : Store) : Nat :=
  match loadCursor s with
  | none => 0
  | some c => c.lastPersistedHeight

/-- The stored block id at a given height: the id of the first record found
with that height (the store is single-writer, §5, so at most one exists in
any reachable state). -/
def storedIdAt (s : Store) (h : Nat) : Option Nat :=
  (s.records.find? fun b => b.height == h).map Block.id

/-- Modelled from the spec: §4.2's conflict condition — some height in the
batch carries an id different from an already-stored id at that height. -/
def hasIdConflict (s : Store) (batch : List Block) : Bool :=
  batch.any fun b =>
    match storedIdAt s b.height with
    | some j => j != b.id
    | none => false

/-- Modelled from the spec: the state a successful `appendBatch` (§4.2)
leaves behind. Records whose height is already stored (necessarily with the
same id, after the conflict check) are skipped as idempotent no-ops; the
remaining records are appended and the cursor is replaced, in the same
value, by the last record actually written. -/
def appendResult (s : Store) (batch : List Block) : Store :=
  let toWrite := batch.filter fun b => (storedIdAt s b.height).isNone
  { records := s.records ++ toWrite,
    cursor :=
      match toWrite.getLast? with
      | none => s.cursor
      | some lt => some ⟨lt.height, lt.id⟩ }

/-- Modelled from the spec: `appendBatch` of §4.2. A batch whose first
height does not equal `cursor.lastPersistedHeight + 1`, or that contains a
height conflicting with an already-stored id at that height, fails with
`SequenceConflictError` and writes nothing (all-or-nothing per call);
otherwise the records are written and the cursor updated atomically. -/
def appendBatch (s : Store) (batch : List Block) : Except SyncError Store :=
  match batch with
  | [] => Except.ok s
  | b0 :: rest =>
    if b0.height ≠ cursorHeight s + 1 then
      Except.error SyncError.sequenceConflictError
    else if hasIdConflict s (b0 :: rest) then
      Except.error SyncError.sequenceConflictError
    else
      Except.ok (appendResult s (b0 :: rest))

/-- The store an `appendBatch` call leaves behind: the new store on success,
the unchanged store on failure (a failed call writes nothing, §4.2). -/
def storeAfter (s : Store) (batch : List Block) : Store :=
  match appendBatch s batch with
  | Except.ok s2 => s2
  | Except.error _ => s

/-- The store with no records and no cursor (empty store, §4.2). -/
def emptyStore : Store :=
  ⟨[], none⟩

/-- The persisted heights, in stored order. -/
def heights (s : Store) : List Nat :=
  s.records.map Block.height

/-- The cursor, when present, names a visible record: the stored id at
`lastPersistedHeight` is `lastPersistedId`. This is the observable content
of §4.2's atomic cursor update — no state has the cursor advanced past a
height whose block is not yet visible. -/
def cursorOk (s : Store) : Prop :=
  match s.cursor with
  | none => True
  | some c => storedIdAt s c.lastPersistedHeight = some c.lastPersistedId

/-- The store invariant the engine maintains (§3, §8): the persisted heights
are exactly `1, 2, …, cursorHeight` in order — strictly ascending, gap-free,
duplicate-free — and the cursor names a visible record. -/
def wellFormed (s : Store) : Prop :=
  heights s = List.range' 1 (cursorHeight s) ∧ cursorOk s

lemma appendBatch_cons_bad (s : Store) (b0 : Block) (rest : List Block)
    (h : b0.height ≠ cursorHeight s + 1) :
    appendBatch s (b0 :: rest) = Except.error SyncError.sequenceConflictError := by
  simp only [appendBatch]
  rw [if_pos h]

lemma appendBatch_cons_conflict (s : Store) (b0 : Block) (rest : List Block)
    (h1 : b0.height = cursorHeight s + 1) (h2 : hasIdConflict s (b0 :: rest) = true) :
    appendBatch s (b0 :: rest) = Except.error SyncError.sequenceConflictError := by
  simp only [appendBatch]
  rw [if_neg (by simp [h1]), if_pos h2]

lemma appendBatch_cons_ok (s : Store) (b0 : Block) (rest : List Block)
    (h1 : b0.height = cursorHeight s + 1) (h2 : hasIdConflict s (b0 :: rest) = false) :
    appendBatch s (b0 :: rest) = Except.ok (appendResult s (b0 :: rest)) := by
  simp only [appendBatch]
  rw [if_neg (by simp [h1]), if_neg (by simp [h2])]

lemma appendResult_records (s : Store) (batch : List Block) :
    (appendResult s batch).records =
      s.records ++ (batch.filter fun b => (storedIdAt s b.height).isNone) :=
  rfl

lemma storedIdAt_appendResult_isSome (s : Store) (batch : List Block) (b : Block)
    (hb : b ∈ batch) : (storedIdAt (appendResult s batch) b.height).isSome := by
  unfold storedIdAt
  rw [appendResult_records, List.find?_append, Option.isSome_map', Option.isSome_or]
  by_cases hc : (storedIdAt s b.height).isSome
  · have hl : (List.find? (fun x => x.height == b.height) s.records).isSome := by
      unfold storedIdAt at hc
      rwa [Option.isSome_map'] at hc
    rw [Bool.or_eq_true]
    exact Or.inl hl
  · have hmem : b ∈ batch.filter fun x => (storedIdAt s x.height).isNone :=
      List.mem_filter.mpr
        ⟨hb, by simp [Option.isNone_iff_eq_none, Option.not_isSome_iff_eq_none.mp hc]⟩
    have hr : (List.find? (fun x => x.height == b.height)
        (batch.filter fun x => (storedIdAt s x.height).isNone)).isSome := by
      rw [List.find?_isSome]
      exact ⟨b, hmem, by simp⟩
    rw [Bool.or_eq_true]
    exact Or.inr hr

lemma appendResult_of_filter_nil (s : Store) (batch : List Block)
    (hfil : (batch.filter fun b => (storedIdAt s b.height).isNone) = []) :
    appendResult s batch = s := by
  unfold appendResult
  rw [hfil]
  simp

/-- C2. `appendBatch` is idempotent: calling it twice with the same batch
leaves the store in the same state as calling it once — the second call
either rejects the batch (writing nothing) or skips every record as an
already-stored duplicate and leaves both records and cursor as they were. -/
theorem appendBatch_idempotent (s : Store) (batch : List Block) :
    storeAfter (storeAfter s batch) batch = storeAfter s batch := by
  cases batch with
  | nil =>
    simp [storeAfter, appendBatch]
  | cons b0 rest =>
    by_cases h1 : b0.height = cursorHeight s + 1
    · by_cases h2 : hasIdConflict s (b0 :: rest) = true
      · simp [storeAfter, appendBatch_cons_conflict s b0 rest h1 h2]
      · have h2f : hasIdConflict s (b0 :: rest) = false := by
          rwa [Bool.not_eq_true] at h2
        have hok := appendBatch_cons_ok s b0 rest h1 h2f
        have hafter : storeAfter s (b0 :: rest) = appendResult s (b0 :: rest) := by
          simp [storeAfter, hok]
        rw [hafter]
        have hsome : ∀ b ∈ b0 :: rest,
            (storedIdAt (appendResult s (b0 :: rest)) b.height).isSome :=
          fun b hb => storedIdAt_appendResult_isSome s (b0 :: rest) b hb
        by_cases h1' : b0.height = cursorHeight (appendResult s (b0 :: rest)) + 1
        · by_cases h2' : hasIdConflict (appendResult s (b0 :: rest)) (b0 :: rest) = true
          · simp [storeAfter,
              appendBatch_cons_conflict (appendResult s (b0 :: rest)) b0 rest h1' h2']
          · have h2f' : hasIdConflict (appendResult s (b0 :: rest)) (b0 :: rest) = false := by
              rwa [Bool.not_eq_true] at h2'
            have hok2 := appendBatch_cons_ok (appendResult s (b0 :: rest)) b0 rest h1' h2f'
            have hfil : ((b0 :: rest).filter fun b =>
                (storedIdAt (appendResult s (b0 :: rest)) b.height).isNone) = [] := by
              rw [List.filter_eq_nil_iff]
              intro b hb
              simp [Option.isNone_iff_eq_none]
              rcases Option.isSome_iff_exists.mp (hsome b hb) with ⟨j, hj⟩
              simp [hj]
            simp [storeAfter, hok2,
              appendResult_of_filter_nil (appendResult s (b0 :: rest)) (b0 :: rest) hfil]
        · simp [storeAfter,
            appendBatch_cons_bad (appendResult s (b0 :: rest)) b0 rest h1']
    · simp [storeAfter, appendBatch_cons_bad s b0 rest h1]

lemma storedIdAt_isSome_of_mem_heights (s : Store) (h : Nat) (hm : h ∈ heights s) :
    (storedIdAt s h).isSome := by
  rcases List.mem_map.mp hm with ⟨r, hr, rfl⟩
  unfold storedIdAt
  rw [Option.isSome_map', List.find?_isSome]
  exact ⟨r, hr, by simp⟩

lemma mem_heights_of_storedIdAt_some (s : Store) (h j : Nat)
    (hj : storedIdAt s h = some j) : h ∈ heights s := by
  unfold storedIdAt at hj
  rcases Option.map_eq_some'.mp hj with ⟨r, hr, _⟩
  have hmem := List.mem_of_find?_eq_some hr
  have hht : r.height = h := by simpa using List.find?_some hr
  exact hht ▸ List.mem_map.mpr ⟨r, hmem, rfl⟩

lemma storedIdAt_eq_none_of_gt (s : Store)
    (hr : heights s = List.range' 1 (cursorHeight s)) (h : Nat)
    (hh : cursorHeight s < h) : storedIdAt s h = none := by
  unfold storedIdAt
  rw [Option.map_eq_none']
  rw [List.find?_eq_none]
  intro r hrm
  have : r.height ∈ heights s := List.mem_map.mpr ⟨r, hrm, rfl⟩
  rw [hr] at this
  have := List.mem_range'_1.mp this
  simp only [beq_iff_eq]
  omega

lemma find?_eq_getLast_of_heights_range' (bs : List Block) (a k : Nat) (hk : 0 < k)
    (hmap : bs.map Block.height = List.range' a k) :
    bs.find? (fun b => b.height == a + k - 1) = bs.getLast? := by
  induction bs generalizing a k with
  | nil =>
    have : k = 0 := by
      have := congrArg List.length hmap
      simpa using this.symm
    omega
  | cons b0 rest ih =>
    cases k with
    | zero => omega
    | succ n =>
      rw [List.range'_succ] at hmap
      have hb0 : b0.height = a := by
        have := congrArg List.head? hmap
        simpa using this
      have hrest : rest.map Block.height = List.range' (a + 1) n := by
        have := congrArg List.tail hmap
        simpa using this
      cases n with
      | zero =>
        have : rest = [] := by
          have := congrArg List.length hrest
          simpa using this
        subst this
        simp [List.find?_cons, hb0]
      | succ m =>
        have hrecur := ih (a + 1) (m + 1) (by omega) hrest
        have hrestne : rest ≠ [] := by
          intro hnil
          rw [hnil] at hrest
          have hlen := congrArg List.length hrest
          simp at hlen
        have hne : (b0.height == a + (m + 1 + 1) - 1) = false := by
          simp only [beq_eq_false_iff_ne, ne_eq, hb0]
          omega
        have harith : a + 1 + (m + 1) - 1 = a + (m + 1 + 1) - 1 := by omega
        rw [harith] at hrecur
        have hlast : (b0 :: rest).getLast? = rest.getLast? := by
          rcases Option.isSome_iff_exists.mp (List.getLast?_isSome.mpr hrestne) with ⟨x, hx⟩
          rw [List.getLast?_cons, hx]
          rfl
        rw [List.find?_cons, hne, hlast]
        exact hrecur

lemma appendResult_cursor (s : Store) (batch : List Block) :
    (appendResult s batch).cursor =
      match (batch.filter fun b => (storedIdAt s b.height).isNone).getLast? with
      | none => s.cursor
      | some lt => some ⟨lt.height, lt.id⟩ :=
  rfl

lemma appendBatch_fresh (s : Store) (bs : List Block) (hw : wellFormed s)
    (hmap : bs.map Block.height = List.range' (cursorHeight s + 1) bs.length) :
    appendBatch s bs = Except.ok (appendResult s bs) ∧
    (appendResult s bs).records = s.records ++ bs ∧
    cursorHeight (appendResult s bs) = cursorHeight s + bs.length ∧
    wellFormed (appendResult s bs) := by
  obtain ⟨hhs, hcur⟩ := hw
  have hfreshb : ∀ b ∈ bs, storedIdAt s b.height = none := by
    intro b hb
    apply storedIdAt_eq_none_of_gt s hhs
    have hmem : b.height ∈ bs.map Block.height := List.mem_map.mpr ⟨b, hb, rfl⟩
    rw [hmap] at hmem
    have := List.mem_range'_1.mp hmem
    omega
  have hnoconf : hasIdConflict s bs = false := by
    rw [hasIdConflict, List.any_eq_false]
    intro b hb
    simp [hfreshb b hb]
  have hfil : (bs.filter fun b => (storedIdAt s b.height).isNone) = bs :=
    List.filter_eq_self.mpr fun b hb => by simp [hfreshb b hb]
  have hrecs : (appendResult s bs).records = s.records ++ bs := by
    rw [appendResult_records, hfil]
  cases bs with
  | nil =>
    have hres : appendResult s ([] : List Block) = s :=
      appendResult_of_filter_nil s [] (by simp)
    exact ⟨by rw [hres]; rfl, by rw [hres]; simp, by rw [hres]; simp, by
      rw [hres]; exact ⟨hhs, hcur⟩⟩
  | cons b0 rest =>
    have hb0 : b0.height = cursorHeight s + 1 := by
      have hh := congrArg List.head? hmap
      rw [List.length_cons, List.range'_succ] at hh
      simpa using hh
    have hok : appendBatch s (b0 :: rest) = Except.ok (appendResult s (b0 :: rest)) :=
      appendBatch_cons_ok s b0 rest hb0 hnoconf
    have hne : (b0 :: rest) ≠ [] := by simp
    obtain ⟨lt, hlt⟩ := Option.isSome_iff_exists.mp (List.getLast?_isSome.mpr hne)
    have hlth : lt.height = cursorHeight s + (b0 :: rest).length := by
      have hg := congrArg List.getLast? hmap
      rw [List.getLast?_map, hlt, List.length_cons, List.range'_1_concat,
        List.getLast?_concat] at hg
      have := Option.some.inj hg
      simp only [List.length_cons]
      omega
    have hcurres : (appendResult s (b0 :: rest)).cursor = some ⟨lt.height, lt.id⟩ := by
      rw [appendResult_cursor, hfil, hlt]
    have hch : cursorHeight (appendResult s (b0 :: rest)) =
        cursorHeight s + (b0 :: rest).length := by
      unfold cursorHeight loadCursor
      rw [hcurres]
      exact hlth
    have hH : heights (appendResult s (b0 :: rest)) =
        List.range' 1 (cursorHeight s + (b0 :: rest).length) := by
      unfold heights
      rw [hrecs, List.map_append]
      have hsplit := List.range'_append 1 (cursorHeight s) (b0 :: rest).length 1
      simp only [Nat.one_mul] at hsplit
      rw [Nat.add_comm 1 (cursorHeight s)] at hsplit
      rw [show heights s = s.records.map Block.height from rfl] at hhs
      rw [hhs, hmap, hsplit, Nat.add_comm (b0 :: rest).length (cursorHeight s)]
    have hsid : storedIdAt (appendResult s (b0 :: rest)) lt.height = some lt.id := by
      unfold storedIdAt
      rw [hrecs, List.find?_append]
      have hnone : (s.records.find? fun b => b.height == lt.height) = none := by
        have hn := storedIdAt_eq_none_of_gt s hhs lt.height
          (by rw [hlth]; simp only [List.length_cons]; omega)
        unfold storedIdAt at hn
        exact Option.map_eq_none'.mp hn
      rw [hnone, Option.none_or]
      have hfind := find?_eq_getLast_of_heights_range' (b0 :: rest)
        (cursorHeight s + 1) (b0 :: rest).length (by simp) hmap
      have harith : cursorHeight s + 1 + (b0 :: rest).length - 1 = lt.height := by
        rw [hlth]
        simp only [List.length_cons]
        omega
      rw [harith] at hfind
      rw [hfind, hlt]
      rfl
    have hcurOk : cursorOk (appendResult s (b0 :: rest)) := by
      unfold cursorOk
      rw [hcurres]
      exact hsid
    refine ⟨hok, hrecs, hch, ?_, hcurOk⟩
    rw [hH, hch]

/-- Modelled from the spec: the authoritative remote chain (§4.1) — for the
ordering/identity model the ledger node is a map from height to the accepted
block id at that height. -/
def chainBlock (chain : Nat → Nat) (h : Nat) : Block :=
  ⟨h, chain h, 0⟩

/-- Modelled from the spec: `fetchRange(fromHeightExclusive, toHeightInclusive)`
of §4.1 — the blocks of the chain with heights
`fromHeightExclusive + 1 … toHeightInclusive`, ordered ascending. -/
def fetchRange (chain : Nat → Nat) (fromExclusive toInclusive : Nat) : List Block :=
  (List.range' (fromExclusive + 1) (toInclusive - fromExclusive)).map (chainBlock chain)

/-- Modelled from the spec: the event kinds of §6 delivered to the embedding
application (`connected`, `data` with the newly accepted batch, `error` with
a structured failure, `closed`). -/
inductive SyncEvent where
  | connected
  | dataBatch (blocks : List Block)
  | errorEvent (err : SyncError)
  | closed
  deriving DecidableEq

/-- Modelled from the spec: the Reconciler's `LIVE` step (§4.3) for one
incoming block, with `RECOVERING` inlined. Each emitted event is paired with
the store state at the moment of emission, so ordering facts between
persistence and emission are statable. A next-height block is appended and
emitted; a block beyond the next height opens a gap: the missed range is
fetched and persisted, then the buffered block, each emitted after its
persistence; a stale height is compared against the stored id — a mismatch
surfaces `ReorgDetectedError` and the store is untouched, a match is
discarded silently. -/
def processLive (chain : Nat → Nat) (s : Store) (b : Block) :
    Store × List (Store × SyncEvent) :=
  if b.height = cursorHeight s + 1 then
    match appendBatch s [b] with
    | Except.ok s2 => (s2, [(s2, SyncEvent.dataBatch [b])])
    | Except.error e => (s, [(s, SyncEvent.errorEvent e)])
  else if cursorHeight s + 1 < b.height then
    match appendBatch s (fetchRange chain (cursorHeight s) (b.height - 1)) with
    | Except.error e => (s, [(s, SyncEvent.errorEvent e)])
    | Except.ok s1 =>
      match appendBatch s1 [b] with
      | Except.error e =>
        (s1, [(s1, SyncEvent.dataBatch (fetchRange chain (cursorHeight s) (b.height - 1))),
              (s1, SyncEvent.errorEvent e)])
      | Except.ok s2 =>
        (s2, [(s1, SyncEvent.dataBatch (fetchRange chain (cursorHeight s) (b.height - 1))),
              (s2, SyncEvent.dataBatch [b])])
  else
    match storedIdAt s b.height with
    | none => (s, [])
    | some j =>
      if j = b.id then (s, [])
      else (s, [(s, SyncEvent.errorEvent SyncError.reorgDetectedError)])

/-- Modelled from the spec: one `CATCHING_UP` pass (§4.3) — fetch
`fetchRange(lastPersistedHeight, head)`, persist it, emit the accepted batch
as one `data` event; an empty catch-up transitions to `LIVE` with no write
and no event. -/
def processCatchUp (chain : Nat → Nat) (s : Store) (head : Nat) :
    Store × List (Store × SyncEvent) :=
  if (fetchRange chain (cursorHeight s) head).isEmpty then (s, [])
  else
    match appendBatch s (fetchRange chain (cursorHeight s) head) with
    | Except.ok s2 => (s2, [(s2, SyncEvent.dataBatch (fetchRange chain (cursorHeight s) head))])
    | Except.error e => (s, [(s, SyncEvent.errorEvent e)])

/-- Modelled from the spec: one unit of input to the engine — a block pushed
by the live subscription, or a catch-up pass toward a chain head (the two
block sources of §2 whose interleaving the Reconciler merges). -/
inductive Delivery where
  | liveBlock (b : Block)
  | catchUpTo (head : Nat)
  deriving DecidableEq

/-- One engine step on one delivery. -/
def stepEngine (chain : Nat → Nat) (s : Store) : Delivery → Store × List (Store × SyncEvent)
  | Delivery.liveBlock b => processLive chain s b
  | Delivery.catchUpTo head => processCatchUp chain s head

/-- Modelled from the spec: the Reconciler's control loop (§5) — deliveries
are consumed one at a time, each fully processed (persisted and
event-emitted) before the next is read; the emitted trace pairs each event
with the store at emission time. -/
def runEngine (chain : Nat → Nat) : Store → List Delivery → Store × List (Store × SyncEvent)
  | s, [] => (s, [])
  | s, d :: ds =>
    let p := stepEngine chain s d
    let q := runEngine chain p.1 ds
    (q.1, p.2 ++ q.2)

/-- Modelled from the spec: engine start (§4.3 Initial + §8 restart
scenario) — load the cursor from the store (absent cursor means
`lastPersistedHeight = 0`, genesis-exclusive) and run one catch-up pass
toward the current chain head. -/
def startEngine (chain : Nat → Nat) (head : Nat) (s : Store) :
    Store × List (Store × SyncEvent) :=
  processCatchUp chain s head

lemma wellFormed_emptyStore : wellFormed emptyStore :=
  ⟨rfl, trivial⟩

lemma fetchRange_map_height (chain : Nat → Nat) (a b : Nat) :
    (fetchRange chain a b).map Block.height = List.range' (a + 1) (b - a) := by
  unfold fetchRange
  rw [List.map_map]
  have : (Block.height ∘ chainBlock chain) = fun h => h := by
    funext h
    rfl
  rw [this, List.map_id']

lemma fetchRange_length (chain : Nat → Nat) (a b : Nat) :
    (fetchRange chain a b).length = b - a := by
  unfold fetchRange
  simp

lemma appendBatch_fetch (chain : Nat → Nat) (s : Store) (hw : wellFormed s) (T : Nat) :
    appendBatch s (fetchRange chain (cursorHeight s) T) =
      Except.ok (appendResult s (fetchRange chain (cursorHeight s) T)) ∧
    (appendResult s (fetchRange chain (cursorHeight s) T)).records =
      s.records ++ fetchRange chain (cursorHeight s) T ∧
    cursorHeight (appendResult s (fetchRange chain (cursorHeight s) T)) =
      cursorHeight s + (T - cursorHeight s) ∧
    wellFormed (appendResult s (fetchRange chain (cursorHeight s) T)) := by
  have hmap : (fetchRange chain (cursorHeight s) T).map Block.height =
      List.range' (cursorHeight s + 1) (fetchRange chain (cursorHeight s) T).length := by
    rw [fetchRange_map_height, fetchRange_length]
  have := appendBatch_fresh s (fetchRange chain (cursorHeight s) T) hw hmap
  rwa [fetchRange_length] at this

lemma appendBatch_single (s : Store) (hw : wellFormed s) (b : Block)
    (hb : b.height = cursorHeight s + 1) :
    appendBatch s [b] = Except.ok (appendResult s [b]) ∧
    (appendResult s [b]).records = s.records ++ [b] ∧
    cursorHeight (appendResult s [b]) = cursorHeight s + 1 ∧
    wellFormed (appendResult s [b]) :=
  appendBatch_fresh s [b] hw (by rw [List.length_singleton, List.range'_one]; simp [hb])

lemma processLive_wf (chain : Nat → Nat) (s : Store) (b : Block) (hw : wellFormed s) :
    wellFormed (processLive chain s b).1 := by
  unfold processLive
  by_cases h1 : b.height = cursorHeight s + 1
  · rw [if_pos h1]
    obtain ⟨hok, _, _, hwf⟩ := appendBatch_single s hw b h1
    rw [hok]
    exact hwf
  · rw [if_neg h1]
    by_cases h2 : cursorHeight s + 1 < b.height
    · rw [if_pos h2]
      obtain ⟨hok1, _, hch1, hwf1⟩ := appendBatch_fetch chain s hw (b.height - 1)
      have hb2 : b.height = cursorHeight (appendResult s
          (fetchRange chain (cursorHeight s) (b.height - 1))) + 1 := by
        rw [hch1]
        omega
      obtain ⟨hok2, _, _, hwf2⟩ := appendBatch_single _ hwf1 b hb2
      simp only [hok1, hok2]
      exact hwf2
    · rw [if_neg h2]
      cases hs : storedIdAt s b.height with
      | none => exact hw
      | some j =>
        show wellFormed (if j = b.id then (s, ([] : List (Store × SyncEvent)))
          else (s, [(s, SyncEvent.errorEvent SyncError.reorgDetectedError)])).1
        by_cases hj : j = b.id
        · rw [if_pos hj]
          exact hw
        · rw [if_neg hj]
          exact hw

lemma processCatchUp_wf (chain : Nat → Nat) (s : Store) (head : Nat) (hw : wellFormed s) :
    wellFormed (processCatchUp chain s head).1 := by
  unfold processCatchUp
  by_cases he : (fetchRange chain (cursorHeight s) head).isEmpty
  · rw [if_pos he]
    exact hw
  · rw [if_neg he]
    obtain ⟨hok, _, _, hwf⟩ := appendBatch_fetch chain s hw head
    rw [hok]
    exact hwf

lemma stepEngine_wf (chain : Nat → Nat) (s : Store) (d : Delivery) (hw : wellFormed s) :
    wellFormed (stepEngine chain s d).1 := by
  cases d with
  | liveBlock b => exact processLive_wf chain s b hw
  | catchUpTo head => exact processCatchUp_wf chain s head hw

lemma runEngine_wf (chain : Nat → Nat) (ds : List Delivery) :
    ∀ s : Store, wellFormed s → wellFormed (runEngine chain s ds).1 := by
  induction ds with
  | nil => intro s hw; exact hw
  | cons d ds ih =>
    intro s hw
    show wellFormed (runEngine chain s (d :: ds)).1
    simp only [runEngine]
    exact ih _ (stepEngine_wf chain s d hw)

lemma find?_chainBlock_mem (chain : Nat → Nat) (l : List Nat) (h : Nat) (hmem : h ∈ l) :
    (l.map (chainBlock chain)).find? (fun b => b.height == h) = some (chainBlock chain h) := by
  induction l with
  | nil => cases hmem
  | cons a t ih =>
    rw [List.map_cons, List.find?_cons]
    by_cases ha : a = h
    · subst ha
      simp [chainBlock]
    · have hmem' : h ∈ t := by
        rcases List.mem_cons.mp hmem with h' | h'
        · exact absurd h'.symm ha
        · exact h'
      have hfalse : ((chainBlock chain a).height == h) = false := by
        simp [chainBlock, ha]
      rw [hfalse]
      exact ih hmem'

lemma storedIdAt_records_append_some (s s' : Store) (l2 : List Block) (h j : Nat)
    (hrec : s'.records = s.records ++ l2) (hj : storedIdAt s h = some j) :
    storedIdAt s' h = some j := by
  unfold storedIdAt at *
  rw [hrec, List.find?_append]
  rcases Option.map_eq_some'.mp hj with ⟨r, hr, hid⟩
  rw [hr]
  simpa using hid

lemma storedIdAt_records_append_none (s s' : Store) (l2 : List Block) (h : Nat)
    (hrec : s'.records = s.records ++ l2) (hn : storedIdAt s h = none) :
    storedIdAt s' h = (l2.find? fun b => b.height == h).map Block.id := by
  unfold storedIdAt at *
  rw [hrec, List.find?_append, Option.map_eq_none'.mp hn, Option.none_or]

lemma processCatchUp_spec (chain : Nat → Nat) (s : Store) (head : Nat) (hw : wellFormed s) :
    (processCatchUp chain s head).1.records =
      s.records ++ fetchRange chain (cursorHeight s) head ∧
    cursorHeight (processCatchUp chain s head).1 =
      cursorHeight s + (head - cursorHeight s) ∧
    wellFormed (processCatchUp chain s head).1 := by
  unfold processCatchUp
  obtain ⟨hok, hrec, hch, hwf⟩ := appendBatch_fetch chain s hw head
  by_cases he : (fetchRange chain (cursorHeight s) head).isEmpty
  · rw [if_pos he]
    have hempty := List.isEmpty_iff.mp he
    have hlen := congrArg List.length hempty
    rw [fetchRange_length] at hlen
    simp only [List.length_nil] at hlen
    refine ⟨by rw [hempty]; simp, ?_, hw⟩
    show cursorHeight s = cursorHeight s + (head - cursorHeight s)
    omega
  · rw [if_neg he]
    simp only [hok]
    exact ⟨hrec, hch, hwf⟩

/-- C3. `appendBatch` is all-or-nothing: a batch whose first height is not
`cursor.lastPersistedHeight + 1`, or that contains a height conflicting with
an existing stored id at that height, fails with `SequenceConflictError` and
writes nothing from the batch (the store value, records and cursor both, is
untouched); and the cursor is updated atomically with the records written:
a successful append of an ascending consecutive batch leaves the cursor
naming a visible record, with every height up to the cursor visible. -/
theorem appendBatch_all_or_nothing (s : Store) (batch : List Block) :
    (∀ b0, batch.head? = some b0 → b0.height ≠ cursorHeight s + 1 →
      appendBatch s batch = Except.error SyncError.sequenceConflictError) ∧
    (∀ b ∈ batch, ∀ j, storedIdAt s b.height = some j → j ≠ b.id →
      appendBatch s batch = Except.error SyncError.sequenceConflictError) ∧
    (∀ s2, appendBatch s batch = Except.ok s2 → wellFormed s →
      batch.map Block.height = List.range' (cursorHeight s + 1) batch.length →
      cursorOk s2 ∧ ∀ h, 0 < h → h ≤ cursorHeight s2 → (storedIdAt s2 h).isSome) := by
  refine ⟨?_, ?_, ?_⟩
  · intro b0 hh hneq
    cases batch with
    | nil => simp at hh
    | cons c rest =>
      have hc : c = b0 := by simpa using hh
      subst hc
      exact appendBatch_cons_bad s c rest hneq
  · intro b hb j hj hneq
    cases batch with
    | nil => simp at hb
    | cons c rest =>
      by_cases h1 : c.height = cursorHeight s + 1
      · apply appendBatch_cons_conflict s c rest h1
        rw [hasIdConflict, List.any_eq_true]
        refine ⟨b, hb, ?_⟩
        rw [hj]
        simpa using hneq
      · exact appendBatch_cons_bad s c rest h1
  · intro s2 hok hw hmap
    obtain ⟨hok', _, _, hwf2⟩ := appendBatch_fresh s batch hw hmap
    rw [hok'] at hok
    have hs2 : appendResult s batch = s2 := Except.ok.inj hok
    rw [← hs2]
    obtain ⟨hh2, hco⟩ := hwf2
    refine ⟨hco, ?_⟩
    intro h h0 hle
    apply storedIdAt_isSome_of_mem_heights
    rw [hh2]
    exact List.mem_range'_1.mpr ⟨by omega, by omega⟩

/-- C1. For every sequence of deliveries to the engine — any interleaving of
catch-up passes and live blocks, including duplicates, stale blocks and
reordered heights — the persisted sequence is strictly ascending by height,
has no gaps (every height from 1 up to the cursor is present) and no
duplicate heights, and each persisted height maps to exactly one accepted
block id. -/
theorem persisted_sequence_strictly_ascending_gap_free (chain : Nat → Nat)
    (s : Store) (ds : List Delivery) (hw : wellFormed s) :
    List.Chain' (· < ·) (heights (runEngine chain s ds).1) ∧
    (∀ h, 0 < h → h ≤ cursorHeight (runEngine chain s ds).1 →
      h ∈ heights (runEngine chain s ds).1) ∧
    (heights (runEngine chain s ds).1).Nodup ∧
    (∀ b1 ∈ (runEngine chain s ds).1.records, ∀ b2 ∈ (runEngine chain s ds).1.records,
      b1.height = b2.height → b1.id = b2.id) := by
  obtain ⟨hhs, _⟩ := runEngine_wf chain ds s hw
  have hnd : (heights (runEngine chain s ds).1).Nodup := by
    rw [hhs]
    exact List.nodup_range' _ _
  refine ⟨?_, ?_, hnd, ?_⟩
  · rw [hhs]
    exact (List.pairwise_lt_range' _ _).chain'
  · intro h h0 hle
    rw [hhs]
    exact List.mem_range'_1.mpr ⟨by omega, by omega⟩
  · intro b1 h1 b2 h2 hh
    have hb12 : b1 = b2 := List.inj_on_of_nodup_map hnd h1 h2 hh
    rw [hb12]

/-- Example chain for concrete runs: the accepted id at height `h` is
`100 + h`. -/
def demoChain : Nat → Nat := fun h => 100 + h

/-- A store holding the single block of height 1, cursor at height 1. -/
def demoStore : Store :=
  ⟨[⟨1, 101, 0⟩], some ⟨1, 101⟩⟩

/-- A delivery sequence exercising catch-up, an exact duplicate, a gap and a
stale conflicting block. -/
def demoDeliveries : List Delivery :=
  [Delivery.catchUpTo 2, Delivery.liveBlock ⟨3, 103, 0⟩, Delivery.liveBlock ⟨3, 103, 0⟩,
   Delivery.liveBlock ⟨6, 106, 0⟩, Delivery.liveBlock ⟨2, 999, 0⟩]

/-- Witness for C1 at the empty store and a concrete delivery sequence. -/
theorem persisted_sequence_strictly_ascending_gap_free_witness :
    List.Chain' (· < ·) (heights (runEngine demoChain emptyStore demoDeliveries).1) ∧
    (∀ h, 0 < h → h ≤ cursorHeight (runEngine demoChain emptyStore demoDeliveries).1 →
      h ∈ heights (runEngine demoChain emptyStore demoDeliveries).1) ∧
    (heights (runEngine demoChain emptyStore demoDeliveries).1).Nodup ∧
    (∀ b1 ∈ (runEngine demoChain emptyStore demoDeliveries).1.records,
      ∀ b2 ∈ (runEngine demoChain emptyStore demoDeliveries).1.records,
      b1.height = b2.height → b1.id = b2.id) :=
  persisted_sequence_strictly_ascending_gap_free demoChain emptyStore demoDeliveries
    ⟨rfl, True.intro⟩

/-- C4. Gap recovery ordering: with the cursor at height `H`, a live block at
height `H + 6` (heights `H+1 … H+5` skipped) drives the engine through
recovery — it fetches and persists heights `H+1 … H+5`, emits them as a
`data` event, and only then persists and emits `H + 6`; at the store state
paired with every emitted `data` event containing the `H + 6` block, heights
`H+1 … H+5` are already persisted. -/
theorem gap_recovery_persists_before_emitting (chain : Nat → Nat) (s : Store) (b : Block)
    (hw : wellFormed s) (hb : b.height = cursorHeight s + 6) :
    ∃ s1 s2,
      processLive chain s b =
        (s2, [(s1, SyncEvent.dataBatch (fetchRange chain (cursorHeight s) (cursorHeight s + 5))),
              (s2, SyncEvent.dataBatch [b])]) ∧
      (∀ h, cursorHeight s + 1 ≤ h → h ≤ cursorHeight s + 5 →
        storedIdAt s1 h = some (chain h) ∧ storedIdAt s2 h = some (chain h)) ∧
      storedIdAt s2 b.height = some b.id ∧
      cursorHeight s1 = cursorHeight s + 5 ∧
      cursorHeight s2 = cursorHeight s + 6 := by
  have h1 : ¬(b.height = cursorHeight s + 1) := by omega
  have h2 : cursorHeight s + 1 < b.height := by omega
  obtain ⟨hok1, hrec1, hch1, hwf1⟩ := appendBatch_fetch chain s hw (b.height - 1)
  have hch1' : cursorHeight (appendResult s
      (fetchRange chain (cursorHeight s) (b.height - 1))) = cursorHeight s + 5 := by
    omega
  have hb2 : b.height = cursorHeight (appendResult s
      (fetchRange chain (cursorHeight s) (b.height - 1))) + 1 := by
    omega
  obtain ⟨hok2, hrec2, hch2, hwf2⟩ :=
    appendBatch_single _ hwf1 b hb2
  have hT : b.height - 1 = cursorHeight s + 5 := by omega
  refine ⟨appendResult s (fetchRange chain (cursorHeight s) (b.height - 1)),
    appendResult (appendResult s (fetchRange chain (cursorHeight s) (b.height - 1))) [b],
    ?_, ?_, ?_, hch1', by omega⟩
  · unfold processLive
    rw [if_neg h1, if_pos h2]
    simp only [hok1, hok2]
    rw [hT]
  · intro h hge hle
    have hs1 : storedIdAt (appendResult s
        (fetchRange chain (cursorHeight s) (b.height - 1))) h = some (chain h) := by
      have hnone : storedIdAt s h = none :=
        storedIdAt_eq_none_of_gt s hw.1 h (by omega)
      rw [storedIdAt_records_append_none s _ _ h hrec1 hnone]
      rw [show fetchRange chain (cursorHeight s) (b.height - 1) =
        (List.range' (cursorHeight s + 1) (b.height - 1 - cursorHeight s)).map
          (chainBlock chain) from rfl]
      rw [find?_chainBlock_mem chain _ h (List.mem_range'_1.mpr ⟨by omega, by omega⟩)]
      rfl
    exact ⟨hs1, storedIdAt_records_append_some _ _ [b] h (chain h) hrec2 hs1⟩
  · have hXnone : storedIdAt (appendResult s
        (fetchRange chain (cursorHeight s) (b.height - 1))) b.height = none :=
      storedIdAt_eq_none_of_gt _ hwf1.1 b.height (by omega)
    rw [storedIdAt_records_append_none _ _ [b] b.height hrec2 hXnone]
    simp

/-- Witness for C4: empty store, live block at height 6 with the chain id. -/
theorem gap_recovery_persists_before_emitting_witness :
    ∃ s1 s2,
      processLive demoChain emptyStore ⟨6, 106, 0⟩ =
        (s2, [(s1, SyncEvent.dataBatch (fetchRange demoChain (cursorHeight emptyStore)
                (cursorHeight emptyStore + 5))),
              (s2, SyncEvent.dataBatch [⟨6, 106, 0⟩])]) ∧
      (∀ h, cursorHeight emptyStore + 1 ≤ h → h ≤ cursorHeight emptyStore + 5 →
        storedIdAt s1 h = some (demoChain h) ∧ storedIdAt s2 h = some (demoChain h)) ∧
      storedIdAt s2 (Block.height ⟨6, 106, 0⟩) = some (Block.id ⟨6, 106, 0⟩) ∧
      cursorHeight s1 = cursorHeight emptyStore + 5 ∧
      cursorHeight s2 = cursorHeight emptyStore + 6 :=
  gap_recovery_persists_before_emitting demoChain emptyStore ⟨6, 106, 0⟩
    ⟨rfl, True.intro⟩ rfl

/-- C5. Reorg detection leaves the store unchanged: if the store has a
persisted block at the delivered height with id `x`, a live block at that
height with a different id yields exactly one `error` event of kind
`ReorgDetectedError` with the store untouched, and a live block with the
same id is discarded silently (no event, store untouched). -/
theorem reorg_detection_store_unchanged (chain : Nat → Nat) (s : Store) (b : Block)
    (x : Nat) (hw : wellFormed s) (hx : storedIdAt s b.height = some x) :
    (x ≠ b.id →
      processLive chain s b =
        (s, [(s, SyncEvent.errorEvent SyncError.reorgDetectedError)])) ∧
    (x = b.id → processLive chain s b = (s, [])) := by
  have hmem : b.height ∈ heights s := mem_heights_of_storedIdAt_some s b.height x hx
  have hle : b.height ≤ cursorHeight s := by
    rw [hw.1] at hmem
    have := List.mem_range'_1.mp hmem
    omega
  have h1 : ¬(b.height = cursorHeight s + 1) := by omega
  have h2 : ¬(cursorHeight s + 1 < b.height) := by omega
  constructor
  · intro hne
    unfold processLive
    rw [if_neg h1, if_neg h2]
    simp only [hx]
    rw [if_neg hne]
  · intro heq
    unfold processLive
    rw [if_neg h1, if_neg h2]
    simp only [hx]
    rw [if_pos heq]

/-- Witness for C5 at a store holding height 1 with id 101 and a conflicting
live block at height 1 with id 999. -/
theorem reorg_detection_store_unchanged_witness :
    ((101 : Nat) ≠ Block.id ⟨1, 999, 0⟩ →
      processLive demoChain demoStore ⟨1, 999, 0⟩ =
        (demoStore, [(demoStore, SyncEvent.errorEvent SyncError.reorgDetectedError)])) ∧
    ((101 : Nat) = Block.id ⟨1, 999, 0⟩ →
      processLive demoChain demoStore ⟨1, 999, 0⟩ = (demoStore, [])) :=
  reorg_detection_store_unchanged demoChain demoStore ⟨1, 999, 0⟩ 101 ⟨rfl, rfl⟩ rfl

/-- C6. Restart safety: a fresh engine started against an existing store
reads the cursor and resumes catch-up from the height after
`lastPersistedHeight` — an absent cursor means height 0, catch-up from
genesis — appending exactly `fetchRange(cursorHeight, head)`, and the
persisted sequence is `1 … head`, continuous and gap-free; every further run
of deliveries keeps the persisted heights of the form `1 … cursor`. -/
theorem restart_resumes_catch_up (chain : Nat → Nat) (head : Nat) (s : Store)
    (hw : wellFormed s) (hh : cursorHeight s ≤ head) :
    (loadCursor s = none → cursorHeight s = 0) ∧
    (startEngine chain head s).1.records =
      s.records ++ fetchRange chain (cursorHeight s) head ∧
    heights (startEngine chain head s).1 = List.range' 1 head ∧
    cursorHeight (startEngine chain head s).1 = head ∧
    (∀ ds, heights (runEngine chain (startEngine chain head s).1 ds).1 =
      List.range' 1 (cursorHeight (runEngine chain (startEngine chain head s).1 ds).1)) := by
  unfold startEngine
  obtain ⟨hrec, hch, hwf⟩ := processCatchUp_spec chain s head hw
  have hch' : cursorHeight (processCatchUp chain s head).1 = head := by omega
  refine ⟨?_, hrec, ?_, hch', ?_⟩
  · intro hc
    unfold cursorHeight
    rw [hc]
  · rw [hwf.1, hch']
  · intro ds
    exact (runEngine_wf chain ds _ hwf).1

/-- Witness for C6: the empty store (no cursor, genesis catch-up) toward
chain head 3. -/
theorem restart_resumes_catch_up_witness :
    (loadCursor emptyStore = none → cursorHeight emptyStore = 0) ∧
    (startEngine demoChain 3 emptyStore).1.records =
      emptyStore.records ++ fetchRange demoChain (cursorHeight emptyStore) 3 ∧
    heights (startEngine demoChain 3 emptyStore).1 = List.range' 1 3 ∧
    cursorHeight (startEngine demoChain 3 emptyStore).1 = 3 ∧
    (∀ ds, heights (runEngine demoChain (startEngine demoChain 3 emptyStore).1 ds).1 =
      List.range' 1 (cursorHeight (runEngine demoChain
        (startEngine demoChain 3 emptyStore).1 ds).1)) :=
  restart_resumes_catch_up demoChain 3 emptyStore ⟨rfl, True.intro⟩ (Nat.zero_le 3)

/-- Modelled from the spec: the errors of §7 that fail the calling operation
synchronously — invalid configuration (`ConfigError`) and programmer misuse
(`AlreadyInitializedError`). All runtime, network and store errors are
instead surfaced asynchronously as `error` events (`SyncEvent.errorEvent`). -/
inductive StartError where
  | configError
  | alreadyInitializedError
  deriving DecidableEq

/-- Modelled from the spec: the Sync Engine / Lifecycle Controller state
(§4.4) — the backing store, whether the engine is running, how many live
subscriptions are open, whether `closed` has been emitted, and whether the
Persistence Adapter's resources are held. -/
structure CacheEngine where
  store : Store
  running : Bool
  liveSubs : Nat
  closedEmitted : Bool
  resourcesHeld : Bool
  deriving DecidableEq

/-- Modelled from the spec: `initialize()` of §4.4 (named `initializeCache`
here). An engine that is already running fails synchronously with
`AlreadyInitializedError` rather than opening a second subscription; an
invalid configuration fails synchronously with `ConfigError`; otherwise the
live subscription is opened, resources acquired, and `connected` emitted. -/
def initializeCache (validConfig : Bool) (e : CacheEngine) :
    Option StartError × CacheEngine × List SyncEvent :=
  if e.running then (some StartError.alreadyInitializedError, e, [])
  else if validConfig = false then (some StartError.configError, e, [])
  else (none,
    { e with running := true, liveSubs := e.liveSubs + 1, resourcesHeld := true },
    [SyncEvent.connected])

/-- Modelled from the spec: `close()` of §4.4 — signals cancellation, closes
the live subscription, releases the Persistence Adapter's resources, emits
`closed` exactly once across the engine's lifetime (a later close still
releases but emits nothing), and returns only with everything released. -/
def closeCache (e : CacheEngine) : CacheEngine × List SyncEvent :=
  if e.closedEmitted then
    ({ e with running := false, liveSubs := 0, resourcesHeld := false }, [])
  else
    ({ e with running := false, liveSubs := 0, resourcesHeld := false, closedEmitted := true },
      [SyncEvent.closed])

/-- C7. `initialize()` is guarded against double start: on a running engine a
second call fails synchronously with `AlreadyInitializedError`, leaves the
engine untouched (in particular no second live subscription is opened), and
the only synchronous failures of the calling operation are configuration
errors and this misuse error — every other failure kind is delivered
asynchronously as an `error` event. -/
theorem double_start_guard (validConfig : Bool) (e : CacheEngine)
    (h : e.running = true) :
    initializeCache validConfig e = (some StartError.alreadyInitializedError, e, []) ∧
    (initializeCache validConfig e).2.1.liveSubs = e.liveSubs ∧
    (∀ err : StartError,
      err = StartError.configError ∨ err = StartError.alreadyInitializedError) := by
  unfold initializeCache
  rw [if_pos h]
  refine ⟨rfl, rfl, ?_⟩
  intro err
  cases err with
  | configError => exact Or.inl rfl
  | alreadyInitializedError => exact Or.inr rfl

/-- A running engine with one open subscription. -/
def demoEngineRunning : CacheEngine :=
  ⟨emptyStore, true, 1, false, true⟩

/-- Witness for C7 at a concrete running engine. -/
theorem double_start_guard_witness :
    initializeCache true demoEngineRunning =
      (some StartError.alreadyInitializedError, demoEngineRunning, []) ∧
    (initializeCache true demoEngineRunning).2.1.liveSubs = demoEngineRunning.liveSubs ∧
    (∀ err : StartError,
      err = StartError.configError ∨ err = StartError.alreadyInitializedError) :=
  double_start_guard true demoEngineRunning rfl

/-- C8. `close()` terminates cleanly: on a running engine it emits `closed`
exactly once, closes the live subscription, releases the resources and stops
the engine, all in the state it returns; a second close emits no further
`closed` event, so `closed` is emitted exactly once across the lifetime. -/
theorem close_emits_closed_exactly_once (e : CacheEngine) (_hrun : e.running = true)
    (hcl : e.closedEmitted = false) :
    (closeCache e).2 = [SyncEvent.closed] ∧
    (closeCache e).1.running = false ∧
    (closeCache e).1.liveSubs = 0 ∧
    (closeCache e).1.resourcesHeld = false ∧
    (closeCache (closeCache e).1).2 = [] := by
  unfold closeCache
  rw [if_neg (by simp [hcl])]
  exact ⟨rfl, rfl, rfl, rfl, rfl⟩

/-- Witness for C8 at a concrete running engine. -/
theorem close_emits_closed_exactly_once_witness :
    (closeCache demoEngineRunning).2 = [SyncEvent.closed] ∧
    (closeCache demoEngineRunning).1.running = false ∧
    (closeCache demoEngineRunning).1.liveSubs = 0 ∧
    (closeCache demoEngineRunning).1.resourcesHeld = false ∧
    (closeCache (closeCache demoEngineRunning).1).2 = [] :=
  close_emits_closed_exactly_once demoEngineRunning rfl rfl

/-- The store configuration record constructed in `src/example.py` lines
57–61 (`MongoConfig(uri=..., db_name=..., collection_name=...)`). -/
structure MongoConfig where
  uri : String
  dbName : String
  collectionName : String
  deriving DecidableEq

/-- The ledger endpoint record constructed in `src/example.py` lines 63–67
(`ResilientDBConfig(base_url=..., http_secure=True, ws_secure=True)`). -/
structure ResilientDBConfig where
  baseUrl : String
  httpSecure : Bool
  wsSecure : Bool
  deriving DecidableEq

/-- The process environment (`os.environ`): a partial map from variable name
to value. -/
abbrev Env := String → Option String

/-- The effect of `load_dotenv()` (src/example.py line 44) on the
environment: variables from the `.env` file are added, but an already-set
process variable is not overridden (python-dotenv's default
`override=False`). -/
def loadDotenv (env fileEnv : Env) : Env := fun k =>
  match env k with
  | some v => some v
  | none => fileEnv k

/-- The `MongoConfig` that `main` of src/example.py lines 57–61 builds from
the environment; `os.environ[k]` raises `KeyError` on a missing variable,
modelled as `none`. -/
def exampleMongoConfig (env : Env) : Option MongoConfig :=
  match env "MONGO_URL", env "MONGO_DB", env "MONGO_COLLECTION" with
  | some u, some d, some c => some ⟨u, d, c⟩
  | _, _, _ => none

/-- The `ResilientDBConfig` literal of src/example.py lines 63–67. -/
def exampleResilientDBConfig : ResilientDBConfig :=
  ⟨"resilientdb://crow.resilientdb.com", true, true⟩

/-- The four event handlers registered by src/example.py lines 73–76, in
registration order, as (event kind, printed text prefix). -/
def exampleHandlers : List (String × String) :=
  [("connected", "WebSocket connected."), ("data", "Received new blocks:"),
   ("error", "Error:"), ("closed", "Connection closed.")]

/-- The `MongoConfig` that `main` of src/test.py lines 6–10 builds from the
environment. -/
def testMongoConfig (env : Env) : Option MongoConfig :=
  match env "MONGO_URL", env "MONGO_DB", env "MONGO_COLLECTION" with
  | some u, some d, some c => some ⟨u, d, c⟩
  | _, _, _ => none

/-- The `ResilientDBConfig` literal of src/test.py lines 12–16. -/
def testResilientDBConfig : ResilientDBConfig :=
  ⟨"resilientdb://crow.resilientdb.com", true, true⟩

/-- The four event handlers registered by src/test.py lines 20–23, in
registration order. -/
def testHandlers : List (String × String) :=
  [("connected", "WebSocket connected."), ("data", "Received new blocks:"),
   ("error", "Error:"), ("closed", "Connection closed.")]

/-- The observable actions of the two scripts' `main` coroutines. -/
inductive MainAction where
  | loadEnvFile
  | buildMongoConfig
  | buildResilientDBConfig
  | constructCache
  | registerHandler (kind : String)
  | callInitialize
  | printLine (msg : String)
  | awaitForever
  | callClose
  deriving DecidableEq

/-- How a Python statement run terminates: normally, with
`asyncio.CancelledError`, or with another exception. -/
inductive PyResult where
  | ok
  | cancelledError
  | otherError
  deriving DecidableEq

/-- A run of a Python block: the actions it performed, and how it ended. -/
structure PyRun where
  acts : List MainAction
  res : PyResult
  deriving DecidableEq

/-- A block of actions that completes normally. -/
def pyDo (a : List MainAction) : PyRun :=
  ⟨a, PyResult.ok⟩

/-- Sequencing of Python statements: an exception short-circuits. -/
def pySeq (x y : PyRun) : PyRun :=
  if x.res = PyResult.ok then ⟨x.acts ++ y.acts, y.res⟩ else x

/-- Python `try … except C …`: the handler runs only when the body raised
something the clause catches. -/
def pyTryExcept (catches : PyResult → Bool) (body handler : PyRun) : PyRun :=
  match body.res with
  | PyResult.ok => body
  | r => if catches r then ⟨body.acts ++ handler.acts, handler.res⟩ else body

/-- Python `try … finally …`: the finaliser always runs; its own abnormal
exit replaces the body's. -/
def pyTryFinally (body fin : PyRun) : PyRun :=
  ⟨body.acts ++ fin.acts,
    match fin.res with
    | PyResult.ok => body.res
    | r => r⟩

/-- Which results `except asyncio.CancelledError` catches. -/
def isCancelledClass : PyResult → Bool
  | PyResult.cancelledError => true
  | _ => false

/-- Which results `except Exception` catches — `asyncio.CancelledError`
derives `BaseException`, not `Exception`, so it is not caught. -/
def isExceptionClass : PyResult → Bool
  | PyResult.otherError => true
  | _ => false

/-- The external outcomes that drive one execution of `main`: whether the
three environment variables are present, whether `cache.initialize()`
succeeds, and how the indefinite `await asyncio.Future()` terminates (it
never completes normally; cancellation is the ordinary exit). -/
structure MainOutcome where
  envOk : Bool
  initOk : Bool
  waitRes : PyResult
  deriving DecidableEq

/-- The `main` coroutine of src/example.py lines 46–93, transcribed
statement by statement: build the two configs (line 57 raises `KeyError`
when a variable is missing), construct the cache (line 70), register the
four handlers (lines 73–76), then
`try: initialize; print; try: Future except CancelledError: pass
except Exception: print finally: close` (lines 78–93). -/
def exampleMainRun (o : MainOutcome) : PyRun :=
  pySeq ⟨[MainAction.buildMongoConfig],
      if o.envOk then PyResult.ok else PyResult.otherError⟩
    (pySeq (pyDo [MainAction.buildResilientDBConfig])
      (pySeq (pyDo [MainAction.constructCache])
        (pySeq (pyDo [MainAction.registerHandler "connected",
                      MainAction.registerHandler "data",
                      MainAction.registerHandler "error",
                      MainAction.registerHandler "closed"])
          (pyTryFinally
            (pyTryExcept isExceptionClass
              (pySeq ⟨[MainAction.callInitialize],
                  if o.initOk then PyResult.ok else PyResult.otherError⟩
                (pySeq (pyDo [MainAction.printLine "Synchronization initialized."])
                  (pyTryExcept isCancelledClass
                    ⟨[MainAction.awaitForever], o.waitRes⟩
                    (pyDo []))))
              (pyDo [MainAction.printLine "Error during sync initialization:"]))
            (pyDo [MainAction.callClose])))))

/-- The `main` coroutine of src/test.py lines 5–37, transcribed statement by
statement; its body is line-for-line the same as example.py's `main`. -/
def testMainRun (o : MainOutcome) : PyRun :=
  pySeq ⟨[MainAction.buildMongoConfig],
      if o.envOk then PyResult.ok else PyResult.otherError⟩
    (pySeq (pyDo [MainAction.buildResilientDBConfig])
      (pySeq (pyDo [MainAction.constructCache])
        (pySeq (pyDo [MainAction.registerHandler "connected",
                      MainAction.registerHandler "data",
                      MainAction.registerHandler "error",
                      MainAction.registerHandler "closed"])
          (pyTryFinally
            (pyTryExcept isExceptionClass
              (pySeq ⟨[MainAction.callInitialize],
                  if o.initOk then PyResult.ok else PyResult.otherError⟩
                (pySeq (pyDo [MainAction.printLine "Synchronization initialized."])
                  (pyTryExcept isCancelledClass
                    ⟨[MainAction.awaitForever], o.waitRes⟩
                    (pyDo []))))
              (pyDo [MainAction.printLine "Error during sync initialization:"]))
            (pyDo [MainAction.callClose])))))

/-- src/example.py at module level: `load_dotenv()` (line 44) runs before
`main`. -/
def exampleScriptRun (o : MainOutcome) : PyRun :=
  pySeq (pyDo [MainAction.loadEnvFile]) (exampleMainRun o)

/-- src/test.py at module level: `main` runs with no prior environment
loading. -/
def testScriptRun (o : MainOutcome) : PyRun :=
  testMainRun o

/-- C9. In example.py's `main`, `cache.close()` runs exactly once on every
execution path that constructs the cache — whether `initialize()` succeeds,
raises, or the indefinite wait is cancelled or fails — and it is the final
action of `main`, so cleanup is guaranteed even when startup fails. -/
theorem example_main_always_closes_cache (o : MainOutcome)
    (h : MainAction.constructCache ∈ (exampleMainRun o).acts) :
    (exampleMainRun o).acts.count MainAction.callClose = 1 ∧
    (exampleMainRun o).acts.getLast? = some MainAction.callClose := by
  obtain ⟨envOk, initOk, waitRes⟩ := o
  revert h
  cases envOk <;> cases initOk <;> cases waitRes <;> decide

/-- Witness for C9 on the ordinary path: environment present, `initialize`
succeeds, wait cancelled. -/
theorem example_main_always_closes_cache_witness :
    MainAction.constructCache ∈
      (exampleMainRun ⟨true, true, PyResult.cancelledError⟩).acts ∧
    ((exampleMainRun ⟨true, true, PyResult.cancelledError⟩).acts.count
        MainAction.callClose = 1 ∧
      (exampleMainRun ⟨true, true, PyResult.cancelledError⟩).acts.getLast? =
        some MainAction.callClose) :=
  ⟨by decide, example_main_always_closes_cache ⟨true, true, PyResult.cancelledError⟩
    (by decide)⟩

/-- C10. The two scripts are behaviorally equivalent with respect to the
cache: in any environment where `MONGO_URL`, `MONGO_DB` and
`MONGO_COLLECTION` are already set, example.py (through `load_dotenv`, which
does not override set variables) and test.py construct identical
`MongoConfig` and `ResilientDBConfig` values, register the same four
handlers in the same order, and their `main` bodies produce identical
action traces for every outcome; the scripts differ only by example.py's
loading of the `.env` file first. -/
theorem example_test_behavioral_equivalence (env fileEnv : Env) (u d c : String)
    (hu : env "MONGO_URL" = some u) (hd : env "MONGO_DB" = some d)
    (hc : env "MONGO_COLLECTION" = some c) :
    exampleMongoConfig (loadDotenv env fileEnv) = testMongoConfig env ∧
    exampleResilientDBConfig = testResilientDBConfig ∧
    exampleHandlers = testHandlers ∧
    (∀ o : MainOutcome, exampleMainRun o = testMainRun o) ∧
    (∀ o : MainOutcome, exampleScriptRun o =
      pySeq (pyDo [MainAction.loadEnvFile]) (testScriptRun o)) := by
  refine ⟨?_, rfl, rfl, fun o => rfl, fun o => rfl⟩
  unfold exampleMongoConfig testMongoConfig loadDotenv
  simp only [hu, hd, hc]

/-- An environment with the three MongoDB variables set. -/
def demoEnv : Env := fun k =>
  if k = "MONGO_URL" then some "mongodb://localhost:27017"
  else if k = "MONGO_DB" then some "blocksdb"
  else if k = "MONGO_COLLECTION" then some "blocks"
  else none

/-- An empty `.env` file. -/
def demoFileEnv : Env := fun _ => none

/-- Witness for C10 at a concrete environment. -/
theorem example_test_behavioral_equivalence_witness :
    exampleMongoConfig (loadDotenv demoEnv demoFileEnv) = testMongoConfig demoEnv ∧
    exampleResilientDBConfig = testResilientDBConfig ∧
    exampleHandlers = testHandlers ∧
    (∀ o : MainOutcome, exampleMainRun o = testMainRun o) ∧
    (∀ o : MainOutcome, exampleScriptRun o =
      pySeq (pyDo [MainAction.loadEnvFile]) (testScriptRun o)) :=
  example_test_behavioral_equivalence demoEnv demoFileEnv
    "mongodb://localhost:27017" "blocksdb" "blocks" rfl rfl rfl
